import Mathlib

/-!
Verification development for `analyze_liquidity.py`: the depth-window-aware
order-book volume reconciliation algorithm and its per-exchange aggregation.

Prices, quantities and timestamps are modelled as rationals (the Python code
parses decimal strings with `float`; every claim here is about exact small
decimal values and the algorithm's control structure, where rational
arithmetic agrees with the source's arithmetic).

A price level is the pair `(price, quantity)`, mirroring the `[price, qty]`
pairs indexed as `bid[0]` / `bid[1]` in the source.
-/

abbrev Level : Type := ℚ × ℚ

/-- Loop body of `get_bids_volume` (source lines 28-77).  The Python loop
keeps an index `i` into `actual_bids` and a drifting index
`i + old_bids_offset` into `old_bids`; both pointers start at 0 and only ever
move forward, so the reachable states are exactly the pairs of suffixes of
the two lists, which is how the loop is embedded here: the first list is the
un-consumed suffix of `actual_bids`, the second the un-consumed suffix of
`old_bids`.  The three `if` branches of the source are mutually exclusive
(trichotomy of the price comparison), hence the `if .. else if .. else`. -/
def gbvAux (actual_bids old_bids : List Level) (volume unmatched_volume : ℚ) : ℚ :=
  match actual_bids, old_bids with
  | actual_bid :: as', old_bid :: os' =>
    if actual_bid.1 > old_bid.1 then
      -- Highest bids are on the actual bid side: i += 1, offset -= 1.
      gbvAux as' (old_bid :: os') volume unmatched_volume
    else if actual_bid.1 < old_bid.1 then
      -- Lowest bids are on the actual bid side: offset += 1,
      -- unmatched_volume += old qty * old price.
      gbvAux (actual_bid :: as') os' volume
        (unmatched_volume + old_bid.2 * old_bid.1)
    else
      -- Prices match: credit staged unmatched volume if positive, then the
      -- positive part of (old qty - actual qty) * price; i += 1.
      let volume1 := if unmatched_volume > 0 then volume + unmatched_volume else volume
      let plevel_volume := (old_bid.2 - actual_bid.2) * actual_bid.1
      let volume2 := if plevel_volume > 0 then volume1 + plevel_volume else volume1
      gbvAux as' os' volume2 0
  | _, _ => volume
termination_by actual_bids.length + old_bids.length
decreasing_by all_goals simp only [List.length_cons]; omega

/-- `get_bids_volume(actual_bids, old_bids)` from the source (lines 16-79):
two-pointer alignment of two consecutive bid-side snapshots, both
accumulators starting at 0. -/
def get_bids_volume (actual_bids old_bids : List Level) : ℚ :=
  gbvAux actual_bids old_bids 0 0

/-- Loop body of `get_asks_volume` (source lines 99-150), the mirror of
`gbvAux` with the price comparison direction flipped: on the ask side the
better (inside) price is the lower one. -/
def gavAux (actual_asks old_asks : List Level) (volume unmatched_volume : ℚ) : ℚ :=
  match actual_asks, old_asks with
  | actual_ask :: as', old_ask :: os' =>
    if actual_ask.1 < old_ask.1 then
      -- Lowest asks are on the actual ask side: i += 1, offset -= 1.
      gavAux as' (old_ask :: os') volume unmatched_volume
    else if actual_ask.1 > old_ask.1 then
      -- Higher asks are on the actual ask side: offset += 1,
      -- unmatched_volume += old qty * old price.
      gavAux (actual_ask :: as') os' volume
        (unmatched_volume + old_ask.2 * old_ask.1)
    else
      let volume1 := if unmatched_volume > 0 then volume + unmatched_volume else volume
      let plevel_volume := (old_ask.2 - actual_ask.2) * actual_ask.1
      let volume2 := if plevel_volume > 0 then volume1 + plevel_volume else volume1
      gavAux as' os' volume2 0
  | _, _ => volume
termination_by actual_asks.length + old_asks.length
decreasing_by all_goals simp only [List.length_cons]; omega

/-- `get_asks_volume(actual_asks, old_asks)` from the source (lines 82-152). -/
def get_asks_volume (actual_asks old_asks : List Level) : ℚ :=
  gavAux actual_asks old_asks 0 0

/-- Instrumentation of the `gbvAux` control flow: `true` exactly when the
bid-side alignment loop runs to exhaustion of one list without ever taking
the equal-price branch.  Follows the recursion of `gbvAux` step for step. -/
def gbvNoMatch (actual_bids old_bids : List Level) : Bool :=
  match actual_bids, old_bids with
  | actual_bid :: as', old_bid :: os' =>
    if actual_bid.1 > old_bid.1 then gbvNoMatch as' (old_bid :: os')
    else if actual_bid.1 < old_bid.1 then gbvNoMatch (actual_bid :: as') os'
    else false
  | _, _ => true
termination_by actual_bids.length + old_bids.length
decreasing_by all_goals simp only [List.length_cons]; omega

/-- Fuel-indexed version of the `get_bids_volume` loop: runs at most `fuel`
iterations of the source's `while` loop and answers `none` if the loop has
not yet stopped.  Used to express termination of the loop with an explicit
iteration bound. -/
def gbvFuel (fuel : ℕ) (actual_bids old_bids : List Level)
    (volume unmatched_volume : ℚ) : Option ℚ :=
  match fuel with
  | 0 => none
  | fuel' + 1 =>
    match actual_bids, old_bids with
    | actual_bid :: as', old_bid :: os' =>
      if actual_bid.1 > old_bid.1 then
        gbvFuel fuel' as' (old_bid :: os') volume unmatched_volume
      else if actual_bid.1 < old_bid.1 then
        gbvFuel fuel' (actual_bid :: as') os' volume
          (unmatched_volume + old_bid.2 * old_bid.1)
      else
        let volume1 := if unmatched_volume > 0 then volume + unmatched_volume else volume
        let plevel_volume := (old_bid.2 - actual_bid.2) * actual_bid.1
        let volume2 := if plevel_volume > 0 then volume1 + plevel_volume else volume1
        gbvFuel fuel' as' os' volume2 0
    | _, _ => some volume

/-- Fuel-indexed version of the `get_asks_volume` loop, mirror of `gbvFuel`. -/
def gavFuel (fuel : ℕ) (actual_asks old_asks : List Level)
    (volume unmatched_volume : ℚ) : Option ℚ :=
  match fuel with
  | 0 => none
  | fuel' + 1 =>
    match actual_asks, old_asks with
    | actual_ask :: as', old_ask :: os' =>
      if actual_ask.1 < old_ask.1 then
        gavFuel fuel' as' (old_ask :: os') volume unmatched_volume
      else if actual_ask.1 > old_ask.1 then
        gavFuel fuel' (actual_ask :: as') os' volume
          (unmatched_volume + old_ask.2 * old_ask.1)
      else
        let volume1 := if unmatched_volume > 0 then volume + unmatched_volume else volume
        let plevel_volume := (old_ask.2 - actual_ask.2) * actual_ask.1
        let volume2 := if plevel_volume > 0 then volume1 + plevel_volume else volume1
        gavFuel fuel' as' os' volume2 0
    | _, _ => some volume

/-- One decoded order-book log record (the external reader's output): the
fields the core reads from `data` in `analyze_liquidity`.  `bids` and `asks`
are always present on a decoded record, so the `is not None` checks on the
freshly assigned sides in the source are always true and only the check on
the previously stored side matters. -/
structure ExchangeSnapshot where
  timestamp : ℚ
  exchange : String
  bids : List Level
  asks : List Level

/-- The mutable state of `analyze_liquidity` (source lines 155-170): the
last-seen sides per exchange and the eight output lists. -/
structure AnalyzeState where
  ex1_bids : Option (List Level)
  ex1_asks : Option (List Level)
  ex2_bids : Option (List Level)
  ex2_asks : Option (List Level)
  ex1_bids_volume_timestamp_list : List ℚ
  ex1_bids_volume_list : List ℚ
  ex2_bids_volume_timestamp_list : List ℚ
  ex2_bids_volume_list : List ℚ
  ex1_asks_volume_timestamp_list : List ℚ
  ex1_asks_volume_list : List ℚ
  ex2_asks_volume_timestamp_list : List ℚ
  ex2_asks_volume_list : List ℚ

/-- Initial state of `analyze_liquidity`: no stored sides, all lists empty. -/
def initState : AnalyzeState :=
  ⟨none, none, none, none, [], [], [], [], [], [], [], []⟩

/-- The EXCHANGE 1 block of the loop body (source lines 180-207): remember
the old sides, overwrite the stored sides with the incoming snapshot, and if
an old side existed append the reconciled volume and the timestamp to that
side's lists. -/
def processEx1 (s : AnalyzeState) (data : ExchangeSnapshot) : AnalyzeState :=
  let old_ex1_bids := s.ex1_bids
  let old_ex1_asks := s.ex1_asks
  let s1 := { s with ex1_bids := some data.bids, ex1_asks := some data.asks }
  let s2 :=
    match old_ex1_bids with
    | some ob =>
      { s1 with
        ex1_bids_volume_list :=
          s1.ex1_bids_volume_list ++ [get_bids_volume data.bids ob]
        ex1_bids_volume_timestamp_list :=
          s1.ex1_bids_volume_timestamp_list ++ [data.timestamp] }
    | none => s1
  match old_ex1_asks with
  | some oa =>
    { s2 with
      ex1_asks_volume_list :=
        s2.ex1_asks_volume_list ++ [get_asks_volume data.asks oa]
      ex1_asks_volume_timestamp_list :=
        s2.ex1_asks_volume_timestamp_list ++ [data.timestamp] }
  | none => s2

/-- The EXCHANGE 2 block of the loop body (source lines 212-239), mirror of
`processEx1` on the `ex2_*` fields. -/
def processEx2 (s : AnalyzeState) (data : ExchangeSnapshot) : AnalyzeState :=
  let old_ex2_bids := s.ex2_bids
  let old_ex2_asks := s.ex2_asks
  let s1 := { s with ex2_bids := some data.bids, ex2_asks := some data.asks }
  let s2 :=
    match old_ex2_bids with
    | some ob =>
      { s1 with
        ex2_bids_volume_list :=
          s1.ex2_bids_volume_list ++ [get_bids_volume data.bids ob]
        ex2_bids_volume_timestamp_list :=
          s1.ex2_bids_volume_timestamp_list ++ [data.timestamp] }
    | none => s1
  match old_ex2_asks with
  | some oa =>
    { s2 with
      ex2_asks_volume_list :=
        s2.ex2_asks_volume_list ++ [get_asks_volume data.asks oa]
      ex2_asks_volume_timestamp_list :=
        s2.ex2_asks_volume_timestamp_list ++ [data.timestamp] }
  | none => s2

/-- One iteration of the `analyze_liquidity` loop: the two exchange blocks
run in sequence, each guarded by its own equality test on the record's
`exchange` field, exactly as the two `if data["exchange"] == EX_` statements
in the source. -/
def analyzeStep (EX1 EX2 : String) (s : AnalyzeState) (data : ExchangeSnapshot) :
    AnalyzeState :=
  let s1 := if data.exchange = EX1 then processEx1 s data else s
  if data.exchange = EX2 then processEx2 s1 data else s1

/-- `analyze_liquidity(EX1, EX2, ob_log_list)` (source lines 155-244): fold
the loop body over the decoded log records in order.  The returned 8-tuple of
the source is read off the final state's list fields. -/
def analyze_liquidity (EX1 EX2 : String) (ob_log_list : List ExchangeSnapshot) :
    AnalyzeState :=
  ob_log_list.foldl (analyzeStep EX1 EX2) initState

/-- The per-exchange average-hourly-volume computation of the `__main__`
block (source lines 293-313), for one exchange's four lists:
`lapse = max(asks_ts[-1], bids_ts[-1]) - min(asks_ts[0], bids_ts[0])` and
`avg = (sum(bids_vol) + sum(asks_vol)) / lapse * 3600`.  The source performs
the list indexing and the division unguarded: an empty list raises
`IndexError` and a zero lapse raises `ZeroDivisionError`, both modelled as
`none`. -/
def avg_hourly_volume (bids_ts bids_vol asks_ts asks_vol : List ℚ) : Option ℚ :=
  match asks_ts.getLast?, bids_ts.getLast?, asks_ts.head?, bids_ts.head? with
  | some alast, some blast, some afirst, some bfirst =>
    let lapse := max alast blast - min afirst bfirst
    if lapse = 0 then none
    else some ((bids_vol.sum + asks_vol.sum) / lapse * 3600)
  | _, _, _, _ => none

/-- Joint length measure of a volume (or timestamp) series and its stored
side: the series length plus one if a previous snapshot is stored.  Processing
a record for the matching exchange always increases this by exactly one
(either the series grows, or the first snapshot is stored). -/
def seriesCount (l : List ℚ) (stored : Option (List Level)) : ℕ :=
  l.length + (if stored.isSome then 1 else 0)

/-- The bid-side loop never decreases the `volume` accumulator: every
addition to `volume` is guarded by a positivity check. -/
theorem gbvAux_le (a o : List Level) (vol u : ℚ) : vol ≤ gbvAux a o vol u := by
  induction a, o, vol, u using gbvAux.induct with
  | case1 vol u ab as ob os h ih =>
    rw [gbvAux.eq_def]
    simpa [h] using ih
  | case2 vol u ab as ob os h1 h2 ih =>
    rw [gbvAux.eq_def]
    simpa [h1, h2] using ih
  | case3 vol u ab as ob os h1 h2 volume1 plevel_volume volume2 ih =>
    rw [gbvAux.eq_def]
    simp only [h1, h2, if_false, gt_iff_lt]
    unfold volume2 volume1 plevel_volume at ih
    simp only [dite_eq_ite] at ih
    refine le_trans ?_ ih
    split_ifs <;> linarith
  | case4 a o vol u h =>
    rw [gbvAux.eq_def]
    match a, o with
    | [], _ => exact le_refl vol
    | _ :: _, [] => exact le_refl vol
    | x :: xs, y :: ys => exact (h x xs y ys rfl rfl).elim

/-- The ask-side loop never decreases the `volume` accumulator. -/
theorem gavAux_le (a o : List Level) (vol u : ℚ) : vol ≤ gavAux a o vol u := by
  induction a, o, vol, u using gavAux.induct with
  | case1 vol u ab as ob os h ih =>
    rw [gavAux.eq_def]
    simpa [h] using ih
  | case2 vol u ab as ob os h1 h2 ih =>
    rw [gavAux.eq_def]
    simpa [h1, h2] using ih
  | case3 vol u ab as ob os h1 h2 volume1 plevel_volume volume2 ih =>
    rw [gavAux.eq_def]
    simp only [h1, h2, if_false, gt_iff_lt]
    unfold volume2 volume1 plevel_volume at ih
    simp only [dite_eq_ite] at ih
    refine le_trans ?_ ih
    split_ifs <;> linarith
  | case4 a o vol u h =>
    rw [gavAux.eq_def]
    match a, o with
    | [], _ => exact le_refl vol
    | _ :: _, [] => exact le_refl vol
    | x :: xs, y :: ys => exact (h x xs y ys rfl rfl).elim

/-- Aligning a bid side against itself with nothing staged always takes the
equal-price branch with a zero level delta, leaving `volume` untouched. -/
theorem gbvAux_self (s : List Level) (vol : ℚ) : gbvAux s s vol 0 = vol := by
  induction s generalizing vol with
  | nil => rw [gbvAux.eq_def]
  | cons a as ih =>
    rw [gbvAux.eq_def]
    simp [lt_irrefl, sub_self]
    exact ih vol

/-- Aligning an ask side against itself with nothing staged leaves `volume`
untouched. -/
theorem gavAux_self (s : List Level) (vol : ℚ) : gavAux s s vol 0 = vol := by
  induction s generalizing vol with
  | nil => rw [gavAux.eq_def]
  | cons a as ih =>
    rw [gavAux.eq_def]
    simp [lt_irrefl, sub_self]
    exact ih vol

/-- If the bid-side alignment reaches no further equal-price match before one
index runs out, the loop returns the `volume` accumulator unchanged: the
staged `unmatched_volume` is discarded, whatever it holds. -/
theorem gbvAux_noMatch : ∀ (a o : List Level) (vol u : ℚ),
    gbvNoMatch a o = true → gbvAux a o vol u = vol := by
  intro a o
  induction a, o using gbvNoMatch.induct with
  | case1 ab as ob os h ih =>
    intro vol u hnm
    rw [gbvNoMatch.eq_def] at hnm
    simp only [h, if_true] at hnm
    rw [gbvAux.eq_def]
    simp only [h, if_true]
    exact ih vol u hnm
  | case2 ab as ob os h1 h2 ih =>
    intro vol u hnm
    rw [gbvNoMatch.eq_def] at hnm
    simp only [h1, h2, if_true, if_false] at hnm
    rw [gbvAux.eq_def]
    simp only [h1, h2, if_true, if_false]
    exact ih _ _ hnm
  | case3 ab as ob os h1 h2 =>
    intro vol u hnm
    rw [gbvNoMatch.eq_def] at hnm
    simp [h1, h2] at hnm
  | case4 a o h =>
    intro vol u hnm
    rw [gbvAux.eq_def]
    match a, o with
    | [], _ => rfl
    | _ :: _, [] => rfl
    | x :: xs, y :: ys => exact (h x xs y ys rfl rfl).elim

/-- With strictly more fuel than the combined length of the two lists, the
fuel-indexed bid loop stops and returns the same value as `gbvAux`: every
iteration strictly shrinks the combined remaining length. -/
theorem gbvFuel_complete : ∀ (fuel : ℕ) (a o : List Level) (vol u : ℚ),
    a.length + o.length < fuel →
    gbvFuel fuel a o vol u = some (gbvAux a o vol u) := by
  intro fuel
  induction fuel with
  | zero => intro a o vol u h; omega
  | succ f ihf =>
    intro a o vol u h
    match a, o with
    | [], o => rw [gbvAux.eq_def]; rfl
    | x :: xs, [] => rw [gbvAux.eq_def]; rfl
    | ab :: as, ob :: os =>
      rw [gbvAux.eq_def]
      simp only [gbvFuel, List.length_cons] at h ⊢
      by_cases h1 : ab.1 > ob.1
      · simp only [h1, if_true]
        exact ihf _ _ _ _ (by simp only [List.length_cons]; omega)
      · by_cases h2 : ab.1 < ob.1
        · simp only [h1, h2, if_true, if_false]
          exact ihf _ _ _ _ (by simp only [List.length_cons]; omega)
        · simp only [h1, h2, if_false]
          exact ihf _ _ _ _ (by omega)

/-- Mirror of `gbvFuel_complete` for the ask side. -/
theorem gavFuel_complete : ∀ (fuel : ℕ) (a o : List Level) (vol u : ℚ),
    a.length + o.length < fuel →
    gavFuel fuel a o vol u = some (gavAux a o vol u) := by
  intro fuel
  induction fuel with
  | zero => intro a o vol u h; omega
  | succ f ihf =>
    intro a o vol u h
    match a, o with
    | [], o => rw [gavAux.eq_def]; rfl
    | x :: xs, [] => rw [gavAux.eq_def]; rfl
    | ab :: as, ob :: os =>
      rw [gavAux.eq_def]
      simp only [gavFuel, List.length_cons] at h ⊢
      by_cases h1 : ab.1 < ob.1
      · simp only [h1, if_true]
        exact ihf _ _ _ _ (by simp only [List.length_cons]; omega)
      · by_cases h2 : ab.1 > ob.1
        · simp only [h1, h2, if_true, if_false]
          exact ihf _ _ _ _ (by simp only [List.length_cons]; omega)
        · simp only [h1, h2, if_false]
          exact ihf _ _ _ _ (by omega)

/-- Effect of one loop iteration on each series/stored-side measure: the
measure of every list belonging to exchange `EXi` grows by one exactly when
the record's exchange field equals `EXi`, and is untouched otherwise. -/
theorem analyzeStep_seriesCount (EX1 EX2 : String) (hne : EX1 ≠ EX2)
    (s : AnalyzeState) (d : ExchangeSnapshot) :
    seriesCount (analyzeStep EX1 EX2 s d).ex1_bids_volume_list
        (analyzeStep EX1 EX2 s d).ex1_bids =
      seriesCount s.ex1_bids_volume_list s.ex1_bids +
        (if d.exchange = EX1 then 1 else 0) ∧
    seriesCount (analyzeStep EX1 EX2 s d).ex1_bids_volume_timestamp_list
        (analyzeStep EX1 EX2 s d).ex1_bids =
      seriesCount s.ex1_bids_volume_timestamp_list s.ex1_bids +
        (if d.exchange = EX1 then 1 else 0) ∧
    seriesCount (analyzeStep EX1 EX2 s d).ex1_asks_volume_list
        (analyzeStep EX1 EX2 s d).ex1_asks =
      seriesCount s.ex1_asks_volume_list s.ex1_asks +
        (if d.exchange = EX1 then 1 else 0) ∧
    seriesCount (analyzeStep EX1 EX2 s d).ex1_asks_volume_timestamp_list
        (analyzeStep EX1 EX2 s d).ex1_asks =
      seriesCount s.ex1_asks_volume_timestamp_list s.ex1_asks +
        (if d.exchange = EX1 then 1 else 0) ∧
    seriesCount (analyzeStep EX1 EX2 s d).ex2_bids_volume_list
        (analyzeStep EX1 EX2 s d).ex2_bids =
      seriesCount s.ex2_bids_volume_list s.ex2_bids +
        (if d.exchange = EX2 then 1 else 0) ∧
    seriesCount (analyzeStep EX1 EX2 s d).ex2_bids_volume_timestamp_list
        (analyzeStep EX1 EX2 s d).ex2_bids =
      seriesCount s.ex2_bids_volume_timestamp_list s.ex2_bids +
        (if d.exchange = EX2 then 1 else 0) ∧
    seriesCount (analyzeStep EX1 EX2 s d).ex2_asks_volume_list
        (analyzeStep EX1 EX2 s d).ex2_asks =
      seriesCount s.ex2_asks_volume_list s.ex2_asks +
        (if d.exchange = EX2 then 1 else 0) ∧
    seriesCount (analyzeStep EX1 EX2 s d).ex2_asks_volume_timestamp_list
        (analyzeStep EX1 EX2 s d).ex2_asks =
      seriesCount s.ex2_asks_volume_timestamp_list s.ex2_asks +
        (if d.exchange = EX2 then 1 else 0) := by
  rcases s with ⟨b1, a1, b2, a2, l1, l2, l3, l4, l5, l6, l7, l8⟩
  by_cases h1 : d.exchange = EX1 <;> by_cases h2 : d.exchange = EX2
  · exact absurd (h1.symm.trans h2) hne
  all_goals
    cases b1 <;> cases a1 <;> cases b2 <;> cases a2 <;>
      simp [analyzeStep, processEx1, processEx2, h1, h2, hne, hne.symm,
        seriesCount]

/-- Effect of one loop iteration on the stored sides: a side becomes (or
stays) stored exactly when it was already stored or the record belongs to
that exchange. -/
theorem analyzeStep_stored (EX1 EX2 : String) (hne : EX1 ≠ EX2)
    (s : AnalyzeState) (d : ExchangeSnapshot) :
    (analyzeStep EX1 EX2 s d).ex1_bids.isSome =
      (s.ex1_bids.isSome || decide (d.exchange = EX1)) ∧
    (analyzeStep EX1 EX2 s d).ex1_asks.isSome =
      (s.ex1_asks.isSome || decide (d.exchange = EX1)) ∧
    (analyzeStep EX1 EX2 s d).ex2_bids.isSome =
      (s.ex2_bids.isSome || decide (d.exchange = EX2)) ∧
    (analyzeStep EX1 EX2 s d).ex2_asks.isSome =
      (s.ex2_asks.isSome || decide (d.exchange = EX2)) := by
  rcases s with ⟨b1, a1, b2, a2, l1, l2, l3, l4, l5, l6, l7, l8⟩
  by_cases h1 : d.exchange = EX1 <;> by_cases h2 : d.exchange = EX2
  · exact absurd (h1.symm.trans h2) hne
  all_goals
    cases b1 <;> cases a1 <;> cases b2 <;> cases a2 <;>
      simp [analyzeStep, processEx1, processEx2, h1, h2, hne, hne.symm]

/-- The series/stored measures after folding the loop over a log equal the
starting measures plus the number of records for the matching exchange. -/
theorem foldl_seriesCount (EX1 EX2 : String) (hne : EX1 ≠ EX2) :
    ∀ (l : List ExchangeSnapshot) (s : AnalyzeState),
      (seriesCount (l.foldl (analyzeStep EX1 EX2) s).ex1_bids_volume_list
          (l.foldl (analyzeStep EX1 EX2) s).ex1_bids =
        seriesCount s.ex1_bids_volume_list s.ex1_bids +
          l.countP (fun d => decide (d.exchange = EX1))) ∧
      (seriesCount (l.foldl (analyzeStep EX1 EX2) s).ex1_bids_volume_timestamp_list
          (l.foldl (analyzeStep EX1 EX2) s).ex1_bids =
        seriesCount s.ex1_bids_volume_timestamp_list s.ex1_bids +
          l.countP (fun d => decide (d.exchange = EX1))) ∧
      (seriesCount (l.foldl (analyzeStep EX1 EX2) s).ex1_asks_volume_list
          (l.foldl (analyzeStep EX1 EX2) s).ex1_asks =
        seriesCount s.ex1_asks_volume_list s.ex1_asks +
          l.countP (fun d => decide (d.exchange = EX1))) ∧
      (seriesCount (l.foldl (analyzeStep EX1 EX2) s).ex1_asks_volume_timestamp_list
          (l.foldl (analyzeStep EX1 EX2) s).ex1_asks =
        seriesCount s.ex1_asks_volume_timestamp_list s.ex1_asks +
          l.countP (fun d => decide (d.exchange = EX1))) ∧
      (seriesCount (l.foldl (analyzeStep EX1 EX2) s).ex2_bids_volume_list
          (l.foldl (analyzeStep EX1 EX2) s).ex2_bids =
        seriesCount s.ex2_bids_volume_list s.ex2_bids +
          l.countP (fun d => decide (d.exchange = EX2))) ∧
      (seriesCount (l.foldl (analyzeStep EX1 EX2) s).ex2_bids_volume_timestamp_list
          (l.foldl (analyzeStep EX1 EX2) s).ex2_bids =
        seriesCount s.ex2_bids_volume_timestamp_list s.ex2_bids +
          l.countP (fun d => decide (d.exchange = EX2))) ∧
      (seriesCount (l.foldl (analyzeStep EX1 EX2) s).ex2_asks_volume_list
          (l.foldl (analyzeStep EX1 EX2) s).ex2_asks =
        seriesCount s.ex2_asks_volume_list s.ex2_asks +
          l.countP (fun d => decide (d.exchange = EX2))) ∧
      (seriesCount (l.foldl (analyzeStep EX1 EX2) s).ex2_asks_volume_timestamp_list
          (l.foldl (analyzeStep EX1 EX2) s).ex2_asks =
        seriesCount s.ex2_asks_volume_timestamp_list s.ex2_asks +
          l.countP (fun d => decide (d.exchange = EX2))) := by
  intro l
  induction l with
  | nil => intro s; simp
  | cons d l ih =>
    intro s
    obtain ⟨e1, e2, e3, e4, e5, e6, e7, e8⟩ := ih (analyzeStep EX1 EX2 s d)
    obtain ⟨f1, f2, f3, f4, f5, f6, f7, f8⟩ :=
      analyzeStep_seriesCount EX1 EX2 hne s d
    simp only [List.foldl_cons, List.countP_cons, decide_eq_true_eq]
    by_cases hd1 : d.exchange = EX1 <;> by_cases hd2 : d.exchange = EX2
    · exact absurd (hd1.symm.trans hd2) hne
    all_goals
      simp only [hd1, hd2, if_true, if_false, ite_true, ite_false, decide_True,
        decide_False] at f1 f2 f3 f4 f5 f6 f7 f8 ⊢
    all_goals
      exact ⟨by omega, by omega, by omega, by omega,
             by omega, by omega, by omega, by omega⟩

/-- After folding the loop over a log, a side is stored exactly when it was
stored at the start or some record of the log belongs to that exchange. -/
theorem foldl_stored (EX1 EX2 : String) (hne : EX1 ≠ EX2) :
    ∀ (l : List ExchangeSnapshot) (s : AnalyzeState),
      ((l.foldl (analyzeStep EX1 EX2) s).ex1_bids.isSome =
        (s.ex1_bids.isSome || l.any (fun d => decide (d.exchange = EX1)))) ∧
      ((l.foldl (analyzeStep EX1 EX2) s).ex1_asks.isSome =
        (s.ex1_asks.isSome || l.any (fun d => decide (d.exchange = EX1)))) ∧
      ((l.foldl (analyzeStep EX1 EX2) s).ex2_bids.isSome =
        (s.ex2_bids.isSome || l.any (fun d => decide (d.exchange = EX2)))) ∧
      ((l.foldl (analyzeStep EX1 EX2) s).ex2_asks.isSome =
        (s.ex2_asks.isSome || l.any (fun d => decide (d.exchange = EX2)))) := by
  intro l
  induction l with
  | nil => intro s; simp
  | cons d l ih =>
    intro s
    obtain ⟨e1, e2, e3, e4⟩ := ih (analyzeStep EX1 EX2 s d)
    obtain ⟨f1, f2, f3, f4⟩ := analyzeStep_stored EX1 EX2 hne s d
    simp only [List.foldl_cons, List.any_cons]
    refine ⟨?_, ?_, ?_, ?_⟩ <;>
      simp [e1, e2, e3, e4, f1, f2, f3, f4, Bool.or_assoc, Bool.or_comm,
        Bool.or_left_comm]

/-- C1: Confirmed removal via rematch.  For the bid side with old snapshot
[(100,1),(99,1),(98,1)] and new snapshot [(100,1),(98,1)], the fully dropped
level at price 99 is staged as unmatched volume and credited at the
subsequent price match at 98, so `get_bids_volume` returns exactly 99 (the
vanished level's full notional; the quantity delta at 98 is 0). -/
theorem confirmed_removal_via_rematch :
    get_bids_volume [((100 : ℚ), 1), (98, 1)] [(100, 1), (99, 1), (98, 1)] = 99 := by
  norm_num [get_bids_volume, gbvAux.eq_def]

/-- C2: Window-truncation tail discard.  With old bid snapshot
[(100,1),(99,1)] and new snapshot [(100,1)], `get_bids_volume` returns 0;
and in general, from any loop state whose remaining alignment reaches no
further exact price match before either index runs out (`gbvNoMatch`), the
loop returns the `volume` accumulator unchanged — staged unmatched volume is
discarded, never credited. -/
theorem tail_discard_policy :
    get_bids_volume [((100 : ℚ), 1)] [(100, 1), (99, 1)] = 0 ∧
    (∀ (actual_bids old_bids : List Level) (volume unmatched_volume : ℚ),
        gbvNoMatch actual_bids old_bids = true →
        gbvAux actual_bids old_bids volume unmatched_volume = volume) :=
  ⟨by norm_num [get_bids_volume, gbvAux.eq_def], gbvAux_noMatch⟩

/-- Witness for C2: a concrete run with no match (99 against 100) returns
the starting `volume` accumulator 5 and discards the staged 7. -/
theorem tail_discard_policy_witness :
    gbvAux [((99 : ℚ), 1)] [((100 : ℚ), 1)] 5 7 = 5 := by
  apply tail_discard_policy.2
  norm_num [gbvNoMatch.eq_def]

/-- C3 counterexample: with both series empty the source's hourly-volume
computation indexes into empty lists and raises, modelled as `none`; it does
not return the guarded value 0 the claim asserts. -/
theorem avg_hourly_guard_counterexample :
    avg_hourly_volume [] [] [] [] ≠ some 0 := by
  simp [avg_hourly_volume]

/-- C3 (amended): the source's hourly-volume computation has no empty-series
or zero-span guard.  It fails (raises, modelled `none`) when either series is
empty or when the time span is zero, and only returns the value
`(sum bids + sum asks) / span * 3600` when both series are nonempty and the
span is nonzero. -/
theorem avg_hourly_unguarded :
    (∀ bids_ts bids_vol asks_ts asks_vol : List ℚ,
        bids_ts = [] ∨ asks_ts = [] →
        avg_hourly_volume bids_ts bids_vol asks_ts asks_vol = none) ∧
    (∀ bids_ts bids_vol asks_ts asks_vol : List ℚ,
     ∀ hb : bids_ts ≠ [], ∀ ha : asks_ts ≠ [],
        (max (asks_ts.getLast ha) (bids_ts.getLast hb) -
            min (asks_ts.head ha) (bids_ts.head hb) = 0 →
          avg_hourly_volume bids_ts bids_vol asks_ts asks_vol = none) ∧
        (max (asks_ts.getLast ha) (bids_ts.getLast hb) -
            min (asks_ts.head ha) (bids_ts.head hb) ≠ 0 →
          avg_hourly_volume bids_ts bids_vol asks_ts asks_vol =
            some ((bids_vol.sum + asks_vol.sum) /
              (max (asks_ts.getLast ha) (bids_ts.getLast hb) -
               min (asks_ts.head ha) (bids_ts.head hb)) * 3600))) := by
  constructor
  · intro bts bvol ats avol h
    rcases h with h | h
    · subst h
      cases hg : ats.getLast? <;> cases hh : ats.head? <;>
        simp [avg_hourly_volume, hg, hh]
    · subst h
      simp [avg_hourly_volume]
  · intro bts bvol ats avol hb ha
    have h1 : ats.getLast? = some (ats.getLast ha) := List.getLast?_eq_getLast ats ha
    have h2 : bts.getLast? = some (bts.getLast hb) := List.getLast?_eq_getLast bts hb
    have h3 : ats.head? = some (ats.head ha) := List.head?_eq_head ha
    have h4 : bts.head? = some (bts.head hb) := List.head?_eq_head hb
    constructor <;> intro hl <;> simp [avg_hourly_volume, h1, h2, h3, h4, hl]

/-- Witness for C3 (amended): a zero-span pair of singleton series fails,
and a nonempty pair with span 3 returns (10 + 20) / 3 * 3600 = 36000. -/
theorem avg_hourly_unguarded_witness :
    avg_hourly_volume [0] [] [0] [] = none ∧
    avg_hourly_volume [0, 2] [10] [1, 3] [20] = some 36000 := by
  constructor
  · exact (avg_hourly_unguarded.2 [0] [] [0] [] (by simp) (by simp)).1
      (by norm_num [List.getLast])
  · have h := (avg_hourly_unguarded.2 [0, 2] [10] [1, 3] [20]
      (by simp) (by simp)).2 (by norm_num [List.getLast])
    rw [h]
    norm_num [List.getLast]

/-- C4: Monotonic non-negativity.  For every pair of input snapshots (sorted
or not), `get_bids_volume` and `get_asks_volume` return a value ≥ 0: every
addition to the result accumulator is guarded by a positivity check. -/
theorem reconcile_nonneg :
    ∀ (actual_side old_side : List Level),
      0 ≤ get_bids_volume actual_side old_side ∧
      0 ≤ get_asks_volume actual_side old_side :=
  fun a o => ⟨gbvAux_le a o 0 0, gavAux_le a o 0 0⟩

/-- C5: Matched-level delta rule.  At an exact price match the loop adds
`(old_qty - actual_qty) * price` to the result exactly when that delta is
positive (and credits any staged positive unmatched volume); concretely,
old [(100,10)] against new [(100,7)] yields 300 and old [(100,10)] against
new [(100,12)] yields 0, on both sides of the book. -/
theorem matched_level_delta_rule :
    (∀ (price old_qty actual_qty : ℚ) (as1 os1 : List Level) (vol u : ℚ),
      gbvAux ((price, actual_qty) :: as1) ((price, old_qty) :: os1) vol u =
        gbvAux as1 os1
          ((if u > 0 then vol + u else vol) +
           (if (old_qty - actual_qty) * price > 0 then
              (old_qty - actual_qty) * price else 0)) 0) ∧
    (∀ (price old_qty actual_qty : ℚ) (as1 os1 : List Level) (vol u : ℚ),
      gavAux ((price, actual_qty) :: as1) ((price, old_qty) :: os1) vol u =
        gavAux as1 os1
          ((if u > 0 then vol + u else vol) +
           (if (old_qty - actual_qty) * price > 0 then
              (old_qty - actual_qty) * price else 0)) 0) ∧
    get_bids_volume [((100 : ℚ), 7)] [(100, 10)] = 300 ∧
    get_bids_volume [((100 : ℚ), 12)] [(100, 10)] = 0 ∧
    get_asks_volume [((100 : ℚ), 7)] [(100, 10)] = 300 ∧
    get_asks_volume [((100 : ℚ), 12)] [(100, 10)] = 0 := by
  refine ⟨?_, ?_, ?_, ?_, ?_, ?_⟩
  · intro price old_qty actual_qty as1 os1 vol u
    rw [gbvAux.eq_def]
    simp only [lt_irrefl, if_false, gt_iff_lt]
    split_ifs <;> norm_num
  · intro price old_qty actual_qty as1 os1 vol u
    rw [gavAux.eq_def]
    simp only [lt_irrefl, if_false, gt_iff_lt]
    split_ifs <;> norm_num
  · norm_num [get_bids_volume, gbvAux.eq_def]
  · norm_num [get_bids_volume, gbvAux.eq_def]
  · norm_num [get_asks_volume, gavAux.eq_def]
  · norm_num [get_asks_volume, gavAux.eq_def]

/-- C6: Idempotent no-op.  Reconciling any side snapshot against itself
yields 0 on both sides of the book. -/
theorem reconcile_self_zero :
    ∀ s : List Level, get_bids_volume s s = 0 ∧ get_asks_volume s s = 0 :=
  fun s => ⟨gbvAux_self s 0, gavAux_self s 0⟩

/-- C8: Termination and no-crash.  For every pair of finite input lists —
sorted or not — the reconciliation loops stop within
`len(actual) + len(old) + 1` iterations and return the value of the total
functions: each iteration strictly decreases the combined remaining
length. -/
theorem reconcile_terminates_bounded_fuel :
    ∀ (actual_side old_side : List Level),
      gbvFuel (actual_side.length + old_side.length + 1)
          actual_side old_side 0 0 =
        some (get_bids_volume actual_side old_side) ∧
      gavFuel (actual_side.length + old_side.length + 1)
          actual_side old_side 0 0 =
        some (get_asks_volume actual_side old_side) :=
  fun a o =>
    ⟨gbvFuel_complete _ a o 0 0 (by omega),
     gavFuel_complete _ a o 0 0 (by omega)⟩

/-- C10: Empty-side edge case.  If either side passed to `get_bids_volume`
or `get_asks_volume` is empty, the loop's entry condition fails immediately
and the result is 0. -/
theorem empty_side_zero :
    ∀ side : List Level,
      get_bids_volume [] side = 0 ∧ get_bids_volume side [] = 0 ∧
      get_asks_volume [] side = 0 ∧ get_asks_volume side [] = 0 := by
  intro side
  cases side <;>
    simp [get_bids_volume, get_asks_volume, gbvAux.eq_def, gavAux.eq_def]

/-- C7: Series growth invariant.  For distinct exchange identifiers, after
`analyze_liquidity` processes a log, each of an exchange's two volume lists
and two timestamp lists has length `(number of that exchange's records) - 1`:
the first record only seeds the stored state, each later record appends
exactly one entry per side. -/
theorem series_growth_invariant (EX1 EX2 : String) (hne : EX1 ≠ EX2)
    (log : List ExchangeSnapshot) :
    (analyze_liquidity EX1 EX2 log).ex1_bids_volume_list.length =
      log.countP (fun d => decide (d.exchange = EX1)) - 1 ∧
    (analyze_liquidity EX1 EX2 log).ex1_bids_volume_timestamp_list.length =
      log.countP (fun d => decide (d.exchange = EX1)) - 1 ∧
    (analyze_liquidity EX1 EX2 log).ex1_asks_volume_list.length =
      log.countP (fun d => decide (d.exchange = EX1)) - 1 ∧
    (analyze_liquidity EX1 EX2 log).ex1_asks_volume_timestamp_list.length =
      log.countP (fun d => decide (d.exchange = EX1)) - 1 ∧
    (analyze_liquidity EX1 EX2 log).ex2_bids_volume_list.length =
      log.countP (fun d => decide (d.exchange = EX2)) - 1 ∧
    (analyze_liquidity EX1 EX2 log).ex2_bids_volume_timestamp_list.length =
      log.countP (fun d => decide (d.exchange = EX2)) - 1 ∧
    (analyze_liquidity EX1 EX2 log).ex2_asks_volume_list.length =
      log.countP (fun d => decide (d.exchange = EX2)) - 1 ∧
    (analyze_liquidity EX1 EX2 log).ex2_asks_volume_timestamp_list.length =
      log.countP (fun d => decide (d.exchange = EX2)) - 1 := by
  simp only [analyze_liquidity, initState]
  obtain ⟨e1, e2, e3, e4, e5, e6, e7, e8⟩ :=
    foldl_seriesCount EX1 EX2 hne log initState
  obtain ⟨s1, s2, s3, s4⟩ := foldl_stored EX1 EX2 hne log initState
  simp only [initState, seriesCount, List.length_nil, Option.isSome_none,
    Bool.false_or, if_false, Nat.zero_add, Nat.add_zero, ite_false]
    at e1 e2 e3 e4 e5 e6 e7 e8 s1 s2 s3 s4
  simp only [s1] at e1 e2
  simp only [s2] at e3 e4
  simp only [s3] at e5 e6
  simp only [s4] at e7 e8
  have hA := List.countP_eq_zero (p := fun d => decide (d.exchange = EX1))
    (l := log)
  have hB := List.countP_eq_zero (p := fun d => decide (d.exchange = EX2))
    (l := log)
  cases hA1 : log.any (fun d => decide (d.exchange = EX1)) <;>
    cases hB1 : log.any (fun d => decide (d.exchange = EX2)) <;>
      simp only [hA1] at e1 e2 e3 e4 <;> simp only [hB1] at e5 e6 e7 e8 <;>
        simp only [Bool.false_eq_true, if_true, if_false, ite_true, ite_false]
          at e1 e2 e3 e4 e5 e6 e7 e8
  · have hc1 : log.countP (fun d => decide (d.exchange = EX1)) = 0 :=
      hA.mpr (by simpa using List.any_eq_false.mp hA1)
    have hc2 : log.countP (fun d => decide (d.exchange = EX2)) = 0 :=
      hB.mpr (by simpa using List.any_eq_false.mp hB1)
    exact ⟨by omega, by omega, by omega, by omega,
           by omega, by omega, by omega, by omega⟩
  · have hc1 : log.countP (fun d => decide (d.exchange = EX1)) = 0 :=
      hA.mpr (by simpa using List.any_eq_false.mp hA1)
    exact ⟨by omega, by omega, by omega, by omega,
           by omega, by omega, by omega, by omega⟩
  · have hc2 : log.countP (fun d => decide (d.exchange = EX2)) = 0 :=
      hB.mpr (by simpa using List.any_eq_false.mp hB1)
    exact ⟨by omega, by omega, by omega, by omega,
           by omega, by omega, by omega, by omega⟩
  · exact ⟨by omega, by omega, by omega, by omega,
           by omega, by omega, by omega, by omega⟩

/-- Witness for C7: a log of two records for exchange "A" (and none for "B")
yields series of length 1 for "A" and length 0 for "B". -/
theorem series_growth_invariant_witness :
    (analyze_liquidity "A" "B"
      [⟨0, "A", [], []⟩, ⟨1, "A", [], []⟩]).ex1_bids_volume_list.length = 1 ∧
    (analyze_liquidity "A" "B"
      [⟨0, "A", [], []⟩, ⟨1, "A", [], []⟩]).ex2_bids_volume_list.length = 0 := by
  have h := series_growth_invariant "A" "B" (by decide)
    [⟨0, "A", [], []⟩, ⟨1, "A", [], []⟩]
  obtain ⟨h1, -, -, -, h5, -⟩ := h
  constructor
  · rw [h1]
    simp [List.countP_cons]
  · rw [h5]
    simp [List.countP_cons]

/-- C9: Exchange isolation.  With distinct exchange identifiers, processing
a record for one exchange leaves the other exchange's stored sides and all
four of its output lists unchanged, and only ever appends to the matching
exchange's four output lists; symmetrically for the other exchange. -/
theorem exchange_isolation (EX1 EX2 : String) (hne : EX1 ≠ EX2)
    (s : AnalyzeState) (d : ExchangeSnapshot) :
    (d.exchange = EX1 →
      ((analyzeStep EX1 EX2 s d).ex2_bids = s.ex2_bids ∧
       (analyzeStep EX1 EX2 s d).ex2_asks = s.ex2_asks ∧
       (analyzeStep EX1 EX2 s d).ex2_bids_volume_list = s.ex2_bids_volume_list ∧
       (analyzeStep EX1 EX2 s d).ex2_bids_volume_timestamp_list =
         s.ex2_bids_volume_timestamp_list ∧
       (analyzeStep EX1 EX2 s d).ex2_asks_volume_list = s.ex2_asks_volume_list ∧
       (analyzeStep EX1 EX2 s d).ex2_asks_volume_timestamp_list =
         s.ex2_asks_volume_timestamp_list) ∧
      (∃ t, (analyzeStep EX1 EX2 s d).ex1_bids_volume_list =
        s.ex1_bids_volume_list ++ t) ∧
      (∃ t, (analyzeStep EX1 EX2 s d).ex1_bids_volume_timestamp_list =
        s.ex1_bids_volume_timestamp_list ++ t) ∧
      (∃ t, (analyzeStep EX1 EX2 s d).ex1_asks_volume_list =
        s.ex1_asks_volume_list ++ t) ∧
      (∃ t, (analyzeStep EX1 EX2 s d).ex1_asks_volume_timestamp_list =
        s.ex1_asks_volume_timestamp_list ++ t)) ∧
    (d.exchange = EX2 →
      ((analyzeStep EX1 EX2 s d).ex1_bids = s.ex1_bids ∧
       (analyzeStep EX1 EX2 s d).ex1_asks = s.ex1_asks ∧
       (analyzeStep EX1 EX2 s d).ex1_bids_volume_list = s.ex1_bids_volume_list ∧
       (analyzeStep EX1 EX2 s d).ex1_bids_volume_timestamp_list =
         s.ex1_bids_volume_timestamp_list ∧
       (analyzeStep EX1 EX2 s d).ex1_asks_volume_list = s.ex1_asks_volume_list ∧
       (analyzeStep EX1 EX2 s d).ex1_asks_volume_timestamp_list =
         s.ex1_asks_volume_timestamp_list) ∧
      (∃ t, (analyzeStep EX1 EX2 s d).ex2_bids_volume_list =
        s.ex2_bids_volume_list ++ t) ∧
      (∃ t, (analyzeStep EX1 EX2 s d).ex2_bids_volume_timestamp_list =
        s.ex2_bids_volume_timestamp_list ++ t) ∧
      (∃ t, (analyzeStep EX1 EX2 s d).ex2_asks_volume_list =
        s.ex2_asks_volume_list ++ t) ∧
      (∃ t, (analyzeStep EX1 EX2 s d).ex2_asks_volume_timestamp_list =
        s.ex2_asks_volume_timestamp_list ++ t)) := by
  constructor
  · intro hd
    have hd2 : ¬d.exchange = EX2 := by rw [hd]; exact hne
    rcases s with ⟨b1, a1, b2, a2, l1, l2, l3, l4, l5, l6, l7, l8⟩
    cases b1 <;> cases a1 <;>
      simp [analyzeStep, processEx1, processEx2, hd, hd2, hne, hne.symm]
  · intro hd
    have hd1 : ¬d.exchange = EX1 := by rw [hd]; exact hne.symm
    rcases s with ⟨b1, a1, b2, a2, l1, l2, l3, l4, l5, l6, l7, l8⟩
    cases b2 <;> cases a2 <;>
      simp [analyzeStep, processEx1, processEx2, hd, hd1, hne, hne.symm]

/-- Witness for C9: a record for exchange "A" leaves exchange "B"'s stored
bids untouched and only extends "A"'s bid volume list. -/
theorem exchange_isolation_witness :
    (analyzeStep "A" "B" initState ⟨0, "A", [], []⟩).ex2_bids =
      initState.ex2_bids ∧
    (∃ t, (analyzeStep "A" "B" initState ⟨0, "A", [], []⟩).ex1_bids_volume_list =
      initState.ex1_bids_volume_list ++ t) := by
  have h := exchange_isolation "A" "B" (by decide) initState ⟨0, "A", [], []⟩
  obtain ⟨hframe, happ, -⟩ := h.1 rfl
  exact ⟨hframe.1, happ⟩
